import Mathlib

/-!
# Verification of the fk-dashboard messaging layer (`edge_interface.py`)

A shallow embedding of the `Command` / `EventLoopMessage` / `EventLoopResponse`
/ `Postman` / `Page` layer of `src/edge_interface.py`, with proofs of the
behavioural properties stated in the specification.

Modelling conventions:
* JSON values (`Any` payloads) are the inductive `Value`.
* Python's `id(self)` supply of unique object identities is modelled by a
  monotone counter `nextId` threaded through the state: every
  `EventLoopResponse` construction consumes one fresh number.  This preserves
  the only property the code relies on — distinctness among live objects.
* `queue.Queue` is a FIFO list (`put` appends at the tail, `get_nowait` pops
  the head); `dict` is an association list with last-write-wins update.
* A raised exception (`KeyError` from `self.in_waiting[message.id]`, or from
  `message.payload['id']`) is `none` in an `Option`-valued result; the state
  returned alongside reflects exactly the mutations performed before the
  raise, as in Python.
* `Event.wait()` blocking is modelled by splitting `send_and_receive` into
  its pre-suspension steps plus the value (`result` field) read after the
  event flag becomes set.
-/

/-- A JSON-like value: the universe of `payload : Any` data on the wire. -/
inductive Value where
  | null : Value
  | bool (b : Bool) : Value
  | int (n : Int) : Value
  | str (s : String) : Value
  | obj (kvs : List (String × Value)) : Value

/-- `Command` from `edge_interface.py`: an immutable (topic, payload) pair. -/
structure Command where
  topic : String
  payload : Value

/-- `Command.javascript(js)`: topic `'javascript'`, payload the script text. -/
def Command.javascript (js : String) : Command :=
  { topic := "javascript", payload := Value.str js }

/-- `Command.update_interval(interval)`: topic `'update_interval'`,
payload the interval in milliseconds. -/
def Command.update_interval (interval : Int) : Command :=
  { topic := "update_interval", payload := Value.int interval }

/-- `EventLoopMessage`: the JSON body of a POST request,
fields `topic`, `payload`, `id`. -/
structure EventLoopMessage where
  topic : String
  payload : Value
  id : Nat

/-- The wire form produced by `EventLoopResponse.to_json()`:
a dict with keys `topic`, `id`, `should_respond`, `payload`. -/
structure Packet where
  topic : String
  id : Nat
  should_respond : Bool
  payload : Value

/-- `EventLoopResponse`: a queued/awaited exchange.  `event` is the
`threading.Event` flag (`True` iff `set()` has been called), `result` the
slot written by `process_message` before signalling. -/
structure EventLoopResponse where
  topic : String
  payload : Value
  should_respond : Bool
  id : Nat
  event : Bool
  result : Option Value

/-- `EventLoopResponse.__init__(command, should_respond=...)` with the fresh
`id(self)` made explicit: `event` starts cleared, `result` starts `None`. -/
def EventLoopResponse.mk' (command : Command) (should_respond : Bool)
    (fresh : Nat) : EventLoopResponse :=
  { topic := command.topic
    payload := command.payload
    should_respond := should_respond
    id := fresh
    event := false
    result := none }

/-- `EventLoopResponse.to_json()`. -/
def EventLoopResponse.to_json (r : EventLoopResponse) : Packet :=
  { topic := r.topic, id := r.id, should_respond := r.should_respond,
    payload := r.payload }

/-- `EventLoopResponse.nothing()`: `Command('nothing', None)` with
`should_respond=False`. -/
def EventLoopResponse.nothing (fresh : Nat) : EventLoopResponse :=
  EventLoopResponse.mk' { topic := "nothing", payload := Value.null } false fresh

/-- The serialized form of `EventLoopResponse.nothing()`. -/
def nothingPacket (fresh : Nat) : Packet :=
  (EventLoopResponse.nothing fresh).to_json

/-- The fields of the no-op payload that identify it (its `id` is whatever
fresh number the transient `nothing()` object got). -/
def Packet.isNoop (p : Packet) : Bool :=
  p.topic = "nothing" && p.should_respond = false &&
    (match p.payload with | Value.null => true | _ => false)

/-- The pending map `in_waiting : Dict[int, EventLoopResponse]` as an
association list. -/
def Waiting := List (Nat × EventLoopResponse)

/-- Dict lookup `d[k]` (as an `Option`; `none` will model `KeyError`). -/
def lookupWaiting : Waiting → Nat → Option EventLoopResponse
  | [], _ => none
  | (k, r) :: rest, i => if k = i then some r else lookupWaiting rest i

/-- Dict assignment `d[k] = r` (replace an existing binding, else append). -/
def insertWaiting : Waiting → Nat → EventLoopResponse → Waiting
  | [], k, r => [(k, r)]
  | (k', r') :: rest, k, r =>
      if k' = k then (k, r) :: rest else (k', r') :: insertWaiting rest k r

/-- The state owned by one `Postman`: the outbound FIFO queue of serialized
packets, the pending map, and the fresh-identity counter. -/
structure PostmanState where
  outgoing_packet_queue : List Packet
  in_waiting : Waiting
  nextId : Nat

/-- `Postman.__init__`: empty queue, empty pending map. -/
def PostmanState.init : PostmanState :=
  { outgoing_packet_queue := [], in_waiting := [], nextId := 0 }

namespace Postman

/-- `Postman.invalidate_outgoing_packets()`: replace the queue with a fresh
empty one; the pending map is untouched. -/
def invalidate_outgoing_packets (s : PostmanState) : PostmanState :=
  { s with outgoing_packet_queue := [] }

/-- `Postman.send(command)`: build `EventLoopResponse(command,
should_respond=False)` and `put` its JSON on the queue. -/
def send (command : Command) (s : PostmanState) : PostmanState :=
  let response := EventLoopResponse.mk' command false s.nextId
  { s with
      outgoing_packet_queue := s.outgoing_packet_queue ++ [response.to_json]
      nextId := s.nextId + 1 }

/-- The first two statements of `Postman.send_and_receive`: construct the
response (`should_respond=True`) and `put` its JSON on the queue.  The pending
map is NOT yet updated at this point in the source. -/
def send_and_receive_enqueue (command : Command) (s : PostmanState) :
    EventLoopResponse × PostmanState :=
  let response := EventLoopResponse.mk' command true s.nextId
  (response,
    { s with
        outgoing_packet_queue := s.outgoing_packet_queue ++ [response.to_json]
        nextId := s.nextId + 1 })

/-- The third statement of `Postman.send_and_receive`:
`self.in_waiting[response.id] = response`. -/
def send_and_receive_register (response : EventLoopResponse)
    (s : PostmanState) : PostmanState :=
  { s with in_waiting := insertWaiting s.in_waiting response.id response }

/-- Everything `Postman.send_and_receive` does before `response.event.wait()`
suspends the caller: enqueue first, then register.  Returns the exchange id
the caller will read its result from. -/
def send_and_receive_start (command : Command) (s : PostmanState) :
    Nat × PostmanState :=
  let (response, s1) := send_and_receive_enqueue command s
  (response.id, send_and_receive_register response s1)

/-- Whether the exchange registered under `i` has had its event signalled:
the caller of `send_and_receive` is unblocked exactly when this is `true`. -/
def eventSet (s : PostmanState) (i : Nat) : Bool :=
  match lookupWaiting s.in_waiting i with
  | some r => r.event
  | none => false

/-- The value `return response.result` yields once the caller unblocks: the
`result` slot of the exchange registered under `i` (the dict entry and the
caller's local variable alias the same object). -/
def sarResult (s : PostmanState) (i : Nat) : Option Value :=
  match lookupWaiting s.in_waiting i with
  | some r => r.result
  | none => none

/-- `Postman.process_message(message)`: `match = self.in_waiting[message.id]`
(a `KeyError` — modelled as `none` — if absent), then `match.result =
message.payload; match.event.set()` mutating the object held by the dict. -/
def process_message (message : EventLoopMessage) (s : PostmanState) :
    Option PostmanState :=
  match lookupWaiting s.in_waiting message.id with
  | none => none
  | some m =>
      some { s with
        in_waiting := insertWaiting s.in_waiting message.id
          { m with result := some message.payload, event := true } }

/-- `Postman.get_new_packet()`: `get_nowait()` the oldest packet, or the
serialized `EventLoopResponse.nothing()` when the queue is empty. -/
def get_new_packet (s : PostmanState) : Packet × PostmanState :=
  match s.outgoing_packet_queue with
  | [] => (nothingPacket s.nextId, { s with nextId := s.nextId + 1 })
  | p :: rest => (p, { s with outgoing_packet_queue := rest })

/-- `Postman.send_buffer_packets(num_packets)`: `put` that many serialized
`nothing()` packets. -/
def send_buffer_packets : Nat → PostmanState → PostmanState
  | 0, s => s
  | n + 1, s =>
      send_buffer_packets n
        { s with
            outgoing_packet_queue :=
              s.outgoing_packet_queue ++ [nothingPacket s.nextId]
            nextId := s.nextId + 1 }

end Postman

/-- Observable side effects of handling one POST request: the on-load hook
firing (`self.on_load()`) and click-callback invocations
(`self._callbacks[...]()`), in execution order. -/
inductive PageEvent where
  | onLoad : PageEvent
  | click (tag_id : String) : PageEvent

/-- How many times the on-load hook fired in an event log. -/
def countOnLoad : List PageEvent → Nat
  | [] => 0
  | PageEvent.onLoad :: rest => countOnLoad rest + 1
  | PageEvent.click _ :: rest => countOnLoad rest

/-- The click-callback invocations of an event log, in order. -/
def clickLog : List PageEvent → List String
  | [] => []
  | PageEvent.onLoad :: rest => clickLog rest
  | PageEvent.click t :: rest => t :: clickLog rest

/-- The state of one `Page` relevant to the messaging layer: the load flag
(`_has_loaded_event.is_set()`), the poll interval, the owned `Postman`, and
the set of element ids with a registered callback (the callback bodies are
external; their invocations are logged as `PageEvent.click`). -/
structure PageState where
  has_loaded : Bool
  update_interval : Int
  postman : PostmanState
  callbacks : List String

/-- `Page.__init__`: not yet loaded, interval 100 ms, fresh `Postman`,
no callbacks. -/
def PageState.init : PageState :=
  { has_loaded := false, update_interval := 100,
    postman := PostmanState.init, callbacks := [] }

namespace Page

/-- The `update_interval` property setter: store the interval and push an
`update_interval` Command through the postman. -/
def set_update_interval (interval : Int) (p : PageState) : PageState :=
  { p with
      update_interval := interval
      postman := Postman.send (Command.update_interval interval) p.postman }

/-- `tid in self._callbacks.keys()`. -/
def hasCallback (cbs : List String) (tid : String) : Bool :=
  match cbs with
  | [] => false
  | c :: rest => if c = tid then true else hasCallback rest tid

/-- `Page.on_button_click(tag_id, callback)`: register the id in the
callback dict (keys stay unique, last registration wins). -/
def on_button_click (tag_id : String) (p : PageState) : PageState :=
  { p with
      callbacks :=
        if hasCallback p.callbacks tag_id then p.callbacks
        else p.callbacks ++ [tag_id] }

/-- The result of handling one POST request: the HTTP response body
(`none` models an uncaught exception, i.e. a 500), the page state after all
mutations that happened before any raise, and the hook/callback event log. -/
structure PostOutcome where
  response : Option Packet
  state : PageState
  events : List PageEvent

/-- Dict lookup on a JSON object. -/
def lookupKey : List (String × Value) → String → Option Value
  | [], _ => none
  | (k, v) :: rest, key => if k = key then some v else lookupKey rest key

/-- `message.payload['id']` in the `onclick` branch: `none` models the
`TypeError`/`KeyError` raised when the payload is not a dict with an
`'id'` key. -/
def payloadId : Value → Option Value
  | Value.obj kvs => lookupKey kvs "id"
  | _ => none

/-- The topic dispatch of the POST branch of `Page.on_request`
(lines 316–328), run after the load-flag prologue: `command_loop` →
dequeue; `onclick` → invoke a registered callback, if any; anything else →
`process_message`.  Its event log holds the callback invocations. -/
def dispatch_post (message : EventLoopMessage) (p1 : PageState) :
    PostOutcome :=
  if message.topic = "command_loop" then
    let pr := Postman.get_new_packet p1.postman
    { response := some pr.1, state := { p1 with postman := pr.2 },
      events := [] }
  else if message.topic = "onclick" then
    match payloadId message.payload with
    | none => { response := none, state := p1, events := [] }
    | some v =>
        let clicks : List PageEvent :=
          match v with
          | Value.str tid =>
              if hasCallback p1.callbacks tid then [PageEvent.click tid]
              else []
          | _ => []
        { response := some (nothingPacket p1.postman.nextId)
          state := { p1 with postman :=
            { p1.postman with nextId := p1.postman.nextId + 1 } }
          events := clicks }
  else
    match Postman.process_message message p1.postman with
    | none => { response := none, state := p1, events := [] }
    | some pm =>
        { response := some (nothingPacket pm.nextId)
          state := { p1 with postman := { pm with nextId := pm.nextId + 1 } }
          events := [] }

/-- The POST branch of `Page.on_request` (lines 310–328), handled serially:
set the load flag and fire the hook if this is the first POST of the cycle,
then dispatch on the topic.  The event log is in execution order: a possible
on-load hook call first, then any callback invocation. -/
def on_request_post (message : EventLoopMessage) (p : PageState) :
    PostOutcome :=
  let loadEvents : List PageEvent :=
    if p.has_loaded then [] else [PageEvent.onLoad]
  let p1 : PageState := { p with has_loaded := true }
  let d := dispatch_post message p1
  { d with events := loadEvents ++ d.events }

/-- The GET branch of `Page.on_request` (lines 329–336): clear the load flag,
invalidate the queue, enqueue 2 buffer packets, re-assert the poll interval
through the `update_interval` setter (which pushes an `update_interval`
Command), then render the template. -/
def on_request_get (p : PageState) : PageState :=
  let p1 : PageState := { p with has_loaded := false }
  let pm : PostmanState :=
    Postman.send_buffer_packets 2
      (Postman.invalidate_outgoing_packets p1.postman)
  let p2 : PageState := { p1 with postman := pm }
  set_update_interval p2.update_interval p2

end Page

/-!
## Interleaving model of the load-flag prologue under concurrent POSTs

The prologue `if not self._has_loaded_event.is_set(): self._has_loaded_event.set();
self.on_load()` runs without any lock.  `Event.is_set()` and `Event.set()`
are individually atomic, so between one worker thread's check and its set a
second worker servicing another POST can run.  We model two threads each
executing the prologue, at the granularity of those atomic calls.
-/

/-- Program counter of one thread inside the load-check prologue. -/
inductive PostPC where
  | start : PostPC
  | observedClear : PostPC
  | done : PostPC
deriving DecidableEq

/-- Shared flag + hook-invocation count + both threads' positions. -/
structure LoadRace where
  flag : Bool
  hookCalls : Nat
  t1 : PostPC
  t2 : PostPC
deriving DecidableEq

/-- One atomic step of a single thread: at `start` it performs the
`is_set()` read (skipping the branch when the flag is already set); at
`observedClear` it performs `set()` and the hook call. -/
def stepThread : PostPC → Bool → Nat → PostPC × Bool × Nat
  | PostPC.start, flag, n =>
      if flag then (PostPC.done, flag, n) else (PostPC.observedClear, flag, n)
  | PostPC.observedClear, _, n => (PostPC.done, true, n + 1)
  | PostPC.done, flag, n => (PostPC.done, flag, n)

/-- Schedule one step of thread 1 (`true`) or thread 2 (`false`). -/
def stepRace (first : Bool) (s : LoadRace) : LoadRace :=
  if first then
    let (pc, flag, n) := stepThread s.t1 s.flag s.hookCalls
    { s with t1 := pc, flag := flag, hookCalls := n }
  else
    let (pc, flag, n) := stepThread s.t2 s.flag s.hookCalls
    { s with t2 := pc, flag := flag, hookCalls := n }

/-- Run a schedule (list of thread choices) from a state. -/
def runRace : List Bool → LoadRace → LoadRace
  | [], s => s
  | c :: rest, s => runRace rest (stepRace c s)

/-- Both POST handlers start at the prologue of a freshly reloaded page
(flag cleared by the GET, hook not yet fired). -/
def raceInit : LoadRace :=
  { flag := false, hookCalls := 0, t1 := PostPC.start, t2 := PostPC.start }

/-!
## Derived notions used by the statements
-/

/-- The exchange id a `send_and_receive(c)` call waits on, from state `s`. -/
def sarId (c : Command) (s : PostmanState) : Nat :=
  (Postman.send_and_receive_start c s).1

/-- The postman state at the moment `send_and_receive(c)` suspends. -/
def sarState (c : Command) (s : PostmanState) : PostmanState :=
  (Postman.send_and_receive_start c s).2

/-- One enqueuing call: `false` tags `send`, `true` tags the pre-suspension
part of `send_and_receive`; run them left to right. -/
def enqueueOps : List (Command × Bool) → PostmanState → PostmanState
  | [], s => s
  | (c, false) :: rest, s => enqueueOps rest (Postman.send c s)
  | (c, true) :: rest, s =>
      enqueueOps rest (Postman.send_and_receive_start c s).2

/-- The serialized Commands such a call sequence produces, given the first
fresh id: topic and payload from each Command, `should_respond` from the
call kind, ids consecutive. -/
def serializeFrom : List (Command × Bool) → Nat → List Packet
  | [], _ => []
  | (c, sr) :: rest, n =>
      { topic := c.topic, id := n, should_respond := sr, payload := c.payload }
        :: serializeFrom rest (n + 1)

/-- `n` successive `get_new_packet` calls (successive poll ticks). -/
def dequeueN : Nat → PostmanState → List Packet × PostmanState
  | 0, s => ([], s)
  | n + 1, s =>
      let pr := Postman.get_new_packet s
      let rest := dequeueN n pr.2
      (pr.1 :: rest.1, rest.2)

/-- All keys of the pending map lie below `n` — true of every reachable
state, since ids are issued from the counter. -/
def keysBelow : Waiting → Nat → Bool
  | [], _ => true
  | (k, _) :: rest, n => decide (k < n) && keysBelow rest n

/-!
## Association-list (pending-map) lemmas
-/

theorem lookupWaiting_insert_self (l : Waiting) (k : Nat)
    (r : EventLoopResponse) :
    lookupWaiting (insertWaiting l k r) k = some r := by
  induction l with
  | nil => simp [insertWaiting, lookupWaiting]
  | cons hd tl ih =>
      obtain ⟨k', r'⟩ := hd
      by_cases h : k' = k <;> simp [insertWaiting, lookupWaiting, h, ih]

theorem lookupWaiting_insert_ne (l : Waiting) (k j : Nat)
    (r : EventLoopResponse) (h : j ≠ k) :
    lookupWaiting (insertWaiting l k r) j = lookupWaiting l j := by
  induction l with
  | nil => simp [insertWaiting, lookupWaiting, Ne.symm h]
  | cons hd tl ih =>
      obtain ⟨k', r'⟩ := hd
      by_cases hk : k' = k <;> by_cases hj : k' = j <;>
        simp_all [insertWaiting, lookupWaiting]

theorem lookupWaiting_none_of_keysBelow (l : Waiting) (n : Nat)
    (h : keysBelow l n = true) : lookupWaiting l n = none := by
  induction l with
  | nil => rfl
  | cons hd tl ih =>
      obtain ⟨k, r⟩ := hd
      simp only [keysBelow, Bool.and_eq_true, decide_eq_true_eq] at h
      simp [lookupWaiting, Nat.ne_of_lt h.1, ih h.2]

/-!
## Queue (FIFO) lemmas
-/

theorem serializeFrom_length (ops : List (Command × Bool)) (n : Nat) :
    (serializeFrom ops n).length = ops.length := by
  induction ops generalizing n with
  | nil => rfl
  | cons op rest ih => obtain ⟨c, sr⟩ := op; simp [serializeFrom, ih]

theorem enqueueOps_queue (ops : List (Command × Bool)) (s : PostmanState) :
    (enqueueOps ops s).outgoing_packet_queue =
      s.outgoing_packet_queue ++ serializeFrom ops s.nextId := by
  induction ops generalizing s with
  | nil => simp [enqueueOps, serializeFrom]
  | cons op rest ih =>
      obtain ⟨c, sr⟩ := op
      cases sr <;>
        simp [enqueueOps, serializeFrom, Postman.send,
          Postman.send_and_receive_start, Postman.send_and_receive_enqueue,
          Postman.send_and_receive_register, EventLoopResponse.mk',
          EventLoopResponse.to_json, ih]

theorem dequeueN_drains (l : List Packet) (s : PostmanState)
    (h : s.outgoing_packet_queue = l) :
    dequeueN l.length s = (l, { s with outgoing_packet_queue := [] }) := by
  induction l generalizing s with
  | nil =>
      cases s
      simp only at h
      simp [dequeueN, h]
  | cons p rest ih =>
      have hget : Postman.get_new_packet s =
          (p, { s with outgoing_packet_queue := rest }) := by
        simp [Postman.get_new_packet, h]
      simp [dequeueN, hget, ih]

/-- C3: with no intervening invalidation, the packets returned by successive
`get_new_packet` calls are exactly the serialized Commands of the
`send` / `send_and_receive` calls, in enqueue order — no loss, no
duplication, no reordering — and the queue is then drained. -/
theorem outbound_fifo_exact (ops : List (Command × Bool)) (s : PostmanState)
    (h : s.outgoing_packet_queue = []) :
    (dequeueN ops.length (enqueueOps ops s)).1 = serializeFrom ops s.nextId ∧
    (dequeueN ops.length (enqueueOps ops s)).2.outgoing_packet_queue = [] := by
  have hq : (enqueueOps ops s).outgoing_packet_queue =
      serializeFrom ops s.nextId := by
    rw [enqueueOps_queue, h]; simp
  have hd := dequeueN_drains (serializeFrom ops s.nextId) (enqueueOps ops s) hq
  rw [← serializeFrom_length ops s.nextId, hd]
  exact ⟨rfl, rfl⟩

/-- Witness for C3 at a concrete call sequence: a fire-and-forget
`javascript` send followed by an awaited `update_interval` send. -/
theorem outbound_fifo_exact_witness :
    PostmanState.init.outgoing_packet_queue = [] ∧
    ((dequeueN
        [(Command.javascript "f();", false), (Command.update_interval 50, true)].length
        (enqueueOps
          [(Command.javascript "f();", false), (Command.update_interval 50, true)]
          PostmanState.init)).1 =
      serializeFrom
        [(Command.javascript "f();", false), (Command.update_interval 50, true)]
        PostmanState.init.nextId ∧
     (dequeueN
        [(Command.javascript "f();", false), (Command.update_interval 50, true)].length
        (enqueueOps
          [(Command.javascript "f();", false), (Command.update_interval 50, true)]
          PostmanState.init)).2.outgoing_packet_queue = []) :=
  ⟨rfl, outbound_fifo_exact
    [(Command.javascript "f();", false), (Command.update_interval 50, true)]
    PostmanState.init rfl⟩

/-- C6: when the outbound queue is empty, `get_new_packet` returns (without
blocking) the no-op payload — topic `nothing`, `should_respond` false,
null payload. -/
theorem getNewPacket_empty_returns_noop (s : PostmanState)
    (h : s.outgoing_packet_queue = []) :
    (Postman.get_new_packet s).1.topic = "nothing" ∧
    (Postman.get_new_packet s).1.should_respond = false ∧
    (Postman.get_new_packet s).1.payload = Value.null := by
  simp [Postman.get_new_packet, h, nothingPacket, EventLoopResponse.nothing,
    EventLoopResponse.mk', EventLoopResponse.to_json]

/-- Witness for C6 on a fresh `Postman`. -/
theorem getNewPacket_empty_returns_noop_witness :
    PostmanState.init.outgoing_packet_queue = [] ∧
    ((Postman.get_new_packet PostmanState.init).1.topic = "nothing" ∧
     (Postman.get_new_packet PostmanState.init).1.should_respond = false ∧
     (Postman.get_new_packet PostmanState.init).1.payload = Value.null) :=
  ⟨rfl, getNewPacket_empty_returns_noop PostmanState.init rfl⟩

/-- C1: a `send_and_receive(c)` caller is suspended (event unsignalled) until
the reply whose id matches its Exchange is processed, at which point its
result slot holds exactly that reply payload and its event is signalled;
processing a reply with any other id leaves its pending entry untouched. -/
theorem sendAndReceive_matching_reply_resolves (c : Command)
    (s : PostmanState) (m mo : EventLoopMessage)
    (hm : m.id = sarId c s) (hmo : mo.id ≠ sarId c s) :
    Postman.eventSet (sarState c s) (sarId c s) = false ∧
    (Postman.process_message m (sarState c s)).isSome = true ∧
    Postman.sarResult
      ((Postman.process_message m (sarState c s)).getD PostmanState.init)
      (sarId c s) = some m.payload ∧
    Postman.eventSet
      ((Postman.process_message m (sarState c s)).getD PostmanState.init)
      (sarId c s) = true ∧
    (∀ s2, Postman.process_message mo (sarState c s) = some s2 →
      lookupWaiting s2.in_waiting (sarId c s) =
        lookupWaiting (sarState c s).in_waiting (sarId c s)) := by
  have hid : sarId c s = s.nextId := rfl
  have hlook : lookupWaiting (sarState c s).in_waiting (sarId c s) =
      some (EventLoopResponse.mk' c true s.nextId) := by
    rw [hid]
    exact lookupWaiting_insert_self s.in_waiting s.nextId _
  refine ⟨?_, ?_, ?_, ?_, ?_⟩
  · simp [Postman.eventSet, hlook, EventLoopResponse.mk']
  · simp [Postman.process_message, hm, hlook]
  · simp only [Postman.process_message, hm, hlook, Option.getD_some,
      Postman.sarResult]
    rw [hid]
    simp [lookupWaiting_insert_self]
  · simp only [Postman.process_message, hm, hlook, Option.getD_some,
      Postman.eventSet]
    rw [hid]
    simp [lookupWaiting_insert_self]
  · intro s2 h2
    cases hcase : lookupWaiting (sarState c s).in_waiting mo.id with
    | none => simp [Postman.process_message, hcase] at h2
    | some r =>
        simp only [Postman.process_message, hcase, Option.some.injEq] at h2
        subst h2
        exact lookupWaiting_insert_ne _ _ _ _ (Ne.symm hmo)

/-- Witness for C1: the end-to-end scenario — an awaited
`Command("javascript","1+1")`, a reply with the matching id 0 and payload 2;
the witnessed call returns 2; id 7 is a different id. -/
theorem sendAndReceive_matching_reply_resolves_witness :
    (0 : Nat) = sarId (Command.javascript "1+1") PostmanState.init ∧
    (7 : Nat) ≠ sarId (Command.javascript "1+1") PostmanState.init ∧
    Postman.sarResult
      ((Postman.process_message ⟨"result", Value.int 2, 0⟩
          (sarState (Command.javascript "1+1") PostmanState.init)).getD
        PostmanState.init)
      (sarId (Command.javascript "1+1") PostmanState.init) =
        some (Value.int 2) :=
  ⟨rfl, by decide,
    (sendAndReceive_matching_reply_resolves (Command.javascript "1+1")
      PostmanState.init ⟨"result", Value.int 2, 0⟩ ⟨"result", Value.int 3, 7⟩
      rfl (by decide)).2.2.1⟩

/-- Counterexample to C5 as stated: right after the enqueue statement of
`send_and_receive` (and before the pending-map assignment, the next
statement in the source), the packet is already at the head of the queue —
`get_new_packet` would return it — while its id is NOT in the pending map. -/
theorem enqueue_precedes_register_counterexample :
    (Postman.get_new_packet
        (Postman.send_and_receive_enqueue (Command.javascript "1+1")
          PostmanState.init).2).1 =
      (Postman.send_and_receive_enqueue (Command.javascript "1+1")
        PostmanState.init).1.to_json ∧
    lookupWaiting
      (Postman.send_and_receive_enqueue (Command.javascript "1+1")
        PostmanState.init).2.in_waiting
      (Postman.send_and_receive_enqueue (Command.javascript "1+1")
        PostmanState.init).1.id = none :=
  ⟨rfl, rfl⟩

/-- C5 (amended): `send_and_receive` creates the Exchange with
`should_respond` true, FIRST enqueues its serialized form, THEN registers it
in the pending map, and only then suspends; between the two steps the packet
is dequeueable while its id is absent from the pending map. -/
theorem sendAndReceive_step_order (c : Command) (s : PostmanState)
    (h : keysBelow s.in_waiting s.nextId = true) :
    (Postman.send_and_receive_enqueue c s).2.outgoing_packet_queue =
      s.outgoing_packet_queue ++
        [(Postman.send_and_receive_enqueue c s).1.to_json] ∧
    (Postman.send_and_receive_enqueue c s).1.should_respond = true ∧
    (Postman.send_and_receive_enqueue c s).2.in_waiting = s.in_waiting ∧
    lookupWaiting (Postman.send_and_receive_enqueue c s).2.in_waiting
      (Postman.send_and_receive_enqueue c s).1.id = none ∧
    Postman.send_and_receive_start c s =
      ((Postman.send_and_receive_enqueue c s).1.id,
        Postman.send_and_receive_register
          (Postman.send_and_receive_enqueue c s).1
          (Postman.send_and_receive_enqueue c s).2) ∧
    Postman.eventSet (sarState c s) (sarId c s) = false := by
  refine ⟨rfl, rfl, rfl, ?_, rfl, ?_⟩
  · exact lookupWaiting_none_of_keysBelow s.in_waiting s.nextId h
  · have hlook : lookupWaiting (sarState c s).in_waiting (sarId c s) =
        some (EventLoopResponse.mk' c true s.nextId) :=
      lookupWaiting_insert_self s.in_waiting s.nextId _
    simp [Postman.eventSet, hlook, EventLoopResponse.mk']

/-- Witness for C5 (amended) on a fresh `Postman`. -/
theorem sendAndReceive_step_order_witness :
    keysBelow PostmanState.init.in_waiting PostmanState.init.nextId = true ∧
    lookupWaiting
      (Postman.send_and_receive_enqueue (Command.update_interval 50)
        PostmanState.init).2.in_waiting
      (Postman.send_and_receive_enqueue (Command.update_interval 50)
        PostmanState.init).1.id = none :=
  ⟨rfl, (sendAndReceive_step_order (Command.update_interval 50)
    PostmanState.init rfl).2.2.2.1⟩

/-- Counterexample to C8 as stated: after the matching reply is processed
(the caller unblocks — its event is signalled), the pending map STILL
contains the entry for id 0; nothing in `send_and_receive` or
`process_message` deletes it. -/
theorem pending_entry_persists_after_resolve :
    (Postman.process_message ⟨"result", Value.int 2, 0⟩
        (sarState (Command.javascript "1+1") PostmanState.init)).isSome =
      true ∧
    Postman.eventSet
      ((Postman.process_message ⟨"result", Value.int 2, 0⟩
          (sarState (Command.javascript "1+1") PostmanState.init)).getD
        PostmanState.init) 0 = true ∧
    (lookupWaiting
        ((Postman.process_message ⟨"result", Value.int 2, 0⟩
            (sarState (Command.javascript "1+1") PostmanState.init)).getD
          PostmanState.init).in_waiting 0).isSome = true :=
  ⟨rfl, rfl, rfl⟩

/-- C8 (amended): completing a `send_and_receive` call leaves its pending-map
entry in place (resolved, never removed), and changes no other entry of the
pending map. -/
theorem resolve_keeps_entry_frame (c : Command) (s : PostmanState)
    (m : EventLoopMessage) (hm : m.id = sarId c s) :
    (Postman.process_message m (sarState c s)).isSome = true ∧
    (lookupWaiting
        ((Postman.process_message m (sarState c s)).getD
          PostmanState.init).in_waiting (sarId c s)).isSome = true ∧
    (∀ j, j ≠ sarId c s →
      lookupWaiting
          ((Postman.process_message m (sarState c s)).getD
            PostmanState.init).in_waiting j =
        lookupWaiting s.in_waiting j) := by
  have hid : sarId c s = s.nextId := rfl
  have hlook : lookupWaiting (sarState c s).in_waiting (sarId c s) =
      some (EventLoopResponse.mk' c true s.nextId) := by
    rw [hid]
    exact lookupWaiting_insert_self s.in_waiting s.nextId _
  refine ⟨?_, ?_, ?_⟩
  · simp [Postman.process_message, hm, hlook]
  · simp only [Postman.process_message, hm, hlook, Option.getD_some]
    rw [hid]
    simp [lookupWaiting_insert_self]
  · intro j hj
    simp only [Postman.process_message, hm, hlook, Option.getD_some]
    rw [hid] at hj ⊢
    rw [lookupWaiting_insert_ne _ _ _ _ hj]
    exact lookupWaiting_insert_ne _ _ _ _ hj

/-- Witness for C8 (amended): the concrete resolved exchange of id 0 stays in
the map, and an unrelated id 5 is untouched. -/
theorem resolve_keeps_entry_frame_witness :
    (0 : Nat) = sarId (Command.javascript "1+1") PostmanState.init ∧
    (lookupWaiting
        ((Postman.process_message ⟨"result", Value.int 2, 0⟩
            (sarState (Command.javascript "1+1") PostmanState.init)).getD
          PostmanState.init).in_waiting
        (sarId (Command.javascript "1+1") PostmanState.init)).isSome = true ∧
    lookupWaiting
        ((Postman.process_message ⟨"result", Value.int 2, 0⟩
            (sarState (Command.javascript "1+1") PostmanState.init)).getD
          PostmanState.init).in_waiting 5 =
      lookupWaiting PostmanState.init.in_waiting 5 :=
  ⟨rfl,
    (resolve_keeps_entry_frame (Command.javascript "1+1") PostmanState.init
      ⟨"result", Value.int 2, 0⟩ rfl).2.1,
    (resolve_keeps_entry_frame (Command.javascript "1+1") PostmanState.init
      ⟨"result", Value.int 2, 0⟩ rfl).2.2 5 (by decide)⟩

/-- C7: for every state, dequeuing right after `invalidate_outgoing_packets`
yields the serialized `nothing()` packet — the no-op constant — whatever the
queue held before. -/
theorem dequeue_after_invalidate_noop (s : PostmanState) :
    (Postman.get_new_packet (Postman.invalidate_outgoing_packets s)).1 =
      nothingPacket s.nextId ∧
    (nothingPacket s.nextId).isNoop = true := by
  exact ⟨rfl, rfl⟩

/-- A page with one exchange pending under id 0 (a blocked
`send_and_receive` caller). -/
def pageWithPending : PageState :=
  { PageState.init with
      postman := sarState (Command.javascript "1+1") PostmanState.init }

/-- C2 evaluated at the failing input: a POST reply whose id 999 was never
issued makes the handler raise (`KeyError` from
`self.in_waiting[message.id]`, modelled as a `none` response) instead of
returning the no-op payload; the pending map itself is left unchanged. -/
theorem staleReply_raises_keyError :
    (Page.on_request_post ⟨"result", Value.int 2, 999⟩
        pageWithPending).response = none ∧
    (Page.on_request_post ⟨"result", Value.int 2, 999⟩
        pageWithPending).state.postman.in_waiting =
      pageWithPending.postman.in_waiting :=
  ⟨rfl, rfl⟩

/-!
## Page-level theorems
-/

theorem countOnLoad_append (a b : List PageEvent) :
    countOnLoad (a ++ b) = countOnLoad a + countOnLoad b := by
  induction a with
  | nil => simp [countOnLoad]
  | cons e rest ih => cases e <;> simp [countOnLoad, ih] <;> omega

theorem clickLog_append (a b : List PageEvent) :
    clickLog (a ++ b) = clickLog a ++ clickLog b := by
  induction a with
  | nil => rfl
  | cons e rest ih => cases e <;> simp [clickLog, ih]

theorem dispatch_post_no_onLoad (m : EventLoopMessage) (p1 : PageState) :
    countOnLoad (Page.dispatch_post m p1).events = 0 := by
  unfold Page.dispatch_post
  repeat' split
  all_goals rfl

theorem dispatch_post_keeps_loaded (m : EventLoopMessage) (p1 : PageState) :
    (Page.dispatch_post m p1).state.has_loaded = p1.has_loaded := by
  unfold Page.dispatch_post
  repeat' split
  all_goals rfl

theorem on_request_post_events_shape (m : EventLoopMessage) (p : PageState) :
    countOnLoad (Page.on_request_post m p).events =
      countOnLoad (if p.has_loaded then [] else [PageEvent.onLoad]) ∧
    (Page.on_request_post m p).state.has_loaded = true := by
  constructor
  · show countOnLoad ((if p.has_loaded then [] else [PageEvent.onLoad]) ++
      (Page.dispatch_post m { p with has_loaded := true }).events) = _
    rw [countOnLoad_append, dispatch_post_no_onLoad]
    omega
  · show (Page.dispatch_post m
      { p with has_loaded := true }).state.has_loaded = true
    rw [dispatch_post_keeps_loaded]

/-- C4 (amended): with requests handled serially, the load flag is false
immediately after any GET; the next POST (whatever its topic) sets it true
and fires the on-load hook exactly once; subsequent POSTs of the same cycle
fire it zero times.  Under concurrent POSTs the unsynchronized
check-then-set prologue can fire the hook twice (see the interleaving
counterexample), so exactly-once holds only for serialized handling. -/
theorem load_cycle_hook_once_serial (p : PageState)
    (m m2 : EventLoopMessage) :
    (Page.on_request_get p).has_loaded = false ∧
    countOnLoad (Page.on_request_post m (Page.on_request_get p)).events = 1 ∧
    (Page.on_request_post m (Page.on_request_get p)).state.has_loaded =
      true ∧
    countOnLoad (Page.on_request_post m2
      (Page.on_request_post m (Page.on_request_get p)).state).events = 0 := by
  have hget : (Page.on_request_get p).has_loaded = false := rfl
  have h1 := on_request_post_events_shape m (Page.on_request_get p)
  have h2 := on_request_post_events_shape m2
    (Page.on_request_post m (Page.on_request_get p)).state
  refine ⟨hget, ?_, h1.2, ?_⟩
  · rw [h1.1, hget]
    rfl
  · rw [h2.1, h1.2]
    rfl

/-- Counterexample to the concurrency clause of C4: two POST handlers for
the same load cycle, interleaved at the granularity of the atomic
`Event.is_set()` / `Event.set()` calls, can BOTH observe the flag clear and
so invoke the on-load hook twice — not exactly once. -/
theorem onLoad_hook_double_fire_interleaving :
    (runRace [true, false, true, false] raceInit).t1 = PostPC.done ∧
    (runRace [true, false, true, false] raceInit).t2 = PostPC.done ∧
    (runRace [true, false, true, false] raceInit).hookCalls = 2 := by
  decide

/-- C9: an `onclick` POST whose payload carries element id `tid` invokes the
registered callback exactly once when one is registered and is a silent
no-op when none is; in both cases the response is the no-op acknowledgement
and the queue, pending map and callback registry are untouched. -/
theorem onclick_callback_once_or_silent_noop (p : PageState) (tid : String)
    (n : Nat) :
    (Page.on_request_post
        ⟨"onclick", Value.obj [("id", Value.str tid)], n⟩ p).response.map
      Packet.isNoop = some true ∧
    clickLog (Page.on_request_post
        ⟨"onclick", Value.obj [("id", Value.str tid)], n⟩ p).events =
      (if Page.hasCallback p.callbacks tid then [tid] else []) ∧
    (Page.on_request_post
        ⟨"onclick", Value.obj [("id", Value.str tid)], n⟩
        p).state.postman.outgoing_packet_queue =
      p.postman.outgoing_packet_queue ∧
    (Page.on_request_post
        ⟨"onclick", Value.obj [("id", Value.str tid)], n⟩
        p).state.postman.in_waiting = p.postman.in_waiting ∧
    (Page.on_request_post
        ⟨"onclick", Value.obj [("id", Value.str tid)], n⟩
        p).state.callbacks = p.callbacks := by
  cases hL : p.has_loaded <;> cases hC : Page.hasCallback p.callbacks tid <;>
    simp [Page.on_request_post, Page.dispatch_post, Page.payloadId,
      Page.lookupKey, clickLog, clickLog_append, hL, hC, nothingPacket,
      Packet.isNoop, EventLoopResponse.nothing, EventLoopResponse.mk',
      EventLoopResponse.to_json]

/-- C10: a GET (with no concurrent senders) leaves the outbound queue
holding exactly two no-op buffer packets followed by one `update_interval`
packet whose payload is the current poll interval of the page. -/
theorem get_leaves_two_noops_then_interval (p : PageState) :
    (Page.on_request_get p).postman.outgoing_packet_queue =
      [nothingPacket p.postman.nextId, nothingPacket (p.postman.nextId + 1),
       { topic := "update_interval", id := p.postman.nextId + 2,
         should_respond := false, payload := Value.int p.update_interval }] ∧
    (nothingPacket p.postman.nextId).isNoop = true ∧
    (nothingPacket (p.postman.nextId + 1)).isNoop = true ∧
    (Page.on_request_get p).update_interval = p.update_interval := by
  exact ⟨rfl, rfl, rfl, rfl⟩


